import Mathlib

/-!
# Verification of `fmi-cli` core logic

Shallow embedding of the chunk planner, request builder, multipoint-coverage
decoder and station resolver of the `fmi_cli` python package, together with
proofs of the behavioural properties claimed in the design document.

Conventions of the embedding:
* instants (python `datetime`, always normalized to UTC by the code under
  verification) are modelled as `ℤ`, seconds since the epoch;
* durations (python `timedelta`) as `ℕ`, whole seconds;
* python floats as exact rationals plus an explicit NaN constructor
  (`PyFloat`); decimal literals are parsed exactly;
* fallible code (python exceptions) as `Except String`;
* python generators as the lists of the items they would yield;
* one parsed XML document is modelled as a record holding exactly the
  elements, attributes and text blocks the decoding functions access.
-/

namespace FmiCli

/-! ## Chunk planner (`api._mk_limits`) -/

/-- The number of resolution steps per chunk:
`min(7 * 24 * 60 * 60 // secs, 168)` from `_mk_limits`. -/
def chunkCap (secs : ℕ) : ℕ := min (604800 / secs) 168

/-- The chunk span in seconds:
`timedelta(seconds=min(7 * 24 * 60 * 60 // secs, 168) * secs)`. -/
def chunkDiff (secs : ℕ) : ℕ := chunkCap secs * secs

/-- The `while start <= end_time` loop of `_mk_limits`: yields
`(start, min(start + diff, end_time))` windows, advancing the cursor to
`end + resolution` each time.  `hs` records that the resolution is a
positive number of seconds (guaranteed by the validity checks that
precede the loop), which makes the loop terminate. -/
def mkLimitsGo (endT : ℤ) (secs diff : ℕ) (hs : 0 < secs) (start : ℤ) :
    List (ℤ × ℤ) :=
  if h : start ≤ endT then
    (start, min (start + (diff : ℤ)) endT) ::
      mkLimitsGo endT secs diff hs (min (start + (diff : ℤ)) endT + secs)
  else []
termination_by (endT + secs - start).toNat
decreasing_by
  have h1 : start ≤ min (start + (diff : ℤ)) endT := by
    refine le_min ?_ h
    exact le_add_of_nonneg_right (by positivity)
  have h2 : min (start + (diff : ℤ)) endT ≤ endT := min_le_right _ _
  omega

/-- `_mk_limits(start_time, end_time, resolution)`: the resolution validity
checks followed by the chunking loop.  An `Except.error` models the python
exception raised when the body of the generator first runs (which happens
before any network request is issued by the callers).  Note that for
`secs = 0` python raises `ZeroDivisionError` from `3600 % secs`; the model
turns this into an error as well (in Lean, `3600 % 0 = 3600 ≠ 0`). -/
def mk_limits (start_time end_time : ℤ) (secs : ℕ) :
    Except String (List (ℤ × ℤ)) :=
  if 3600 < secs ∧ 86400 % secs ≠ 0 then
    .error "lower resolution than an hour must divide 24 hours evenly"
  else if secs < 3600 ∧ 3600 % secs ≠ 0 then
    .error "higher resolution than an hour must divide the hour evenly"
  else if hs : 0 < secs then
    .ok (mkLimitsGo end_time secs (chunkDiff secs) hs start_time)
  else
    -- unreachable: `secs = 0` fails the second check (`3600 % 0 = 3600`)
    .ok []

/-- The instants of the resolution-stepped grid anchored at `s` that lie in
the window `[s, e]`. -/
def steppedIn (s e : ℤ) (secs : ℕ) (t : ℤ) : Prop :=
  ∃ k : ℕ, t = s + (k : ℤ) * secs ∧ t ≤ e

instance (s e : ℤ) (secs : ℕ) (t : ℤ) : Decidable (steppedIn s e secs t) :=
  if hs : 0 < secs then
    decidable_of_iff (s ≤ t ∧ t ≤ e ∧ (secs : ℤ) ∣ (t - s)) (by
      constructor
      · rintro ⟨hst, hte, c, hc⟩
        have hsz : (0 : ℤ) < secs := by exact_mod_cast hs
        have hc0 : 0 ≤ c := by nlinarith
        refine ⟨c.toNat, ?_, hte⟩
        rw [Int.toNat_of_nonneg hc0]
        linarith
      · rintro ⟨k, rfl, hle⟩
        exact ⟨le_add_of_nonneg_right (by positivity), hle, k, by ring⟩)
  else
    decidable_of_iff (t = s ∧ t ≤ e) (by
      constructor
      · rintro ⟨rfl, hle⟩; exact ⟨0, by simp, hle⟩
      · rintro ⟨k, rfl, hle⟩
        have : secs = 0 := by omega
        subst this
        simpa using hle)

/-! ## Request building (`api.get_stored_query`, `api.query_wfs`)

`TS_FMT = "%FT%TZ"` formats a UTC datetime as `YYYY-MM-DDTHH:MM:SSZ`; the
model implements that formatting from epoch seconds with the standard
proleptic-Gregorian civil-from-days conversion. -/

/-- Zero-pad a number below 100 to two digits. -/
def pad2 (n : ℕ) : String := if n < 10 then "0" ++ toString n else toString n

/-- Zero-pad a number below 10000 to four digits. -/
def pad4 (n : ℕ) : String :=
  if n < 10 then "000" ++ toString n
  else if n < 100 then "00" ++ toString n
  else if n < 1000 then "0" ++ toString n
  else toString n

/-- Gregorian `(year, month, day)` of a day count relative to 1970-01-01. -/
def civilFromDays (z0 : ℤ) : ℤ × ℕ × ℕ :=
  let z := z0 + 719468
  let era := z.fdiv 146097
  let doe : ℕ := (z - era * 146097).toNat
  let yoe : ℕ := (doe - doe / 1460 + doe / 36524 - doe / 146096) / 365
  let y : ℤ := (yoe : ℤ) + era * 400
  let doy : ℕ := doe - (365 * yoe + yoe / 4 - yoe / 100)
  let mp : ℕ := (5 * doy + 2) / 153
  let d : ℕ := doy - (153 * mp + 2) / 5 + 1
  let m : ℕ := if mp < 10 then mp + 3 else mp - 9
  (if m ≤ 2 then y + 1 else y, m, d)

/-- `datetime.strftime("%FT%TZ")` on a UTC instant given as epoch seconds:
renders `YYYY-MM-DDTHH:MM:SSZ`, second precision. -/
def tsFmt (t : ℤ) : String :=
  let days := t.fdiv 86400
  let sod := (t.emod 86400).toNat
  let ymd := civilFromDays days
  pad4 ymd.1.toNat ++ "-" ++ pad2 ymd.2.1 ++ "-" ++ pad2 ymd.2.2 ++ "T" ++
    pad2 (sod / 3600) ++ ":" ++ pad2 (sod % 3600 / 60) ++ ":" ++
    pad2 (sod % 60) ++ "Z"

/-- The `place` argument of `get_stored_query`: either an integer station id
or a 4-tuple bounding box.  Coordinates are modelled as exact rationals. -/
inductive Place where
  | fmisid (n : ℤ)
  | bbox (b : ℚ × ℚ × ℚ × ℚ)

/-- Python `str(x)` on a bounding-box coordinate (stand-in rendering for the
numeric value; the claims depend only on the comma-joining). -/
def ratStr (q : ℚ) : String := toString q

/-- Python dict union `l | r`: keys of `l` (updated from `r` where present,
keeping their position) followed by the keys only in `r`. -/
def dictMerge (l r : List (String × String)) : List (String × String) :=
  l.map (fun p =>
    match r.find? (fun q => decide (q.1 = p.1)) with
    | some q => (p.1, q.2)
    | none => p) ++
    r.filter (fun q => !(l.any (fun p => decide (p.1 = q.1))))

/-- Lookup of a key in the parameter mapping. -/
def lookupParam (ps : List (String × String)) (k : String) : Option String :=
  (ps.find? (fun p => decide (p.1 = k))).map (·.2)

/-- The `params` dict built by `get_stored_query` (before `query_wfs` merges
in the base WFS parameters).  A `None` start/end/resolution omits the
corresponding key; a `None` or empty parameter list omits `parameters`. -/
def get_stored_query_params (query_id : String) (place : Place)
    (start_time end_time : Option ℤ) (resolution : Option ℕ)
    (parameters : Option (List String)) : List (String × String) :=
  [("request", "getFeature"), ("storedquery_id", query_id)] ++
    (match place with
     | .fmisid n => [("fmisid", toString n)]
     | .bbox b =>
         [("bbox", String.intercalate ","
             [ratStr b.1, ratStr b.2.1, ratStr b.2.2.1, ratStr b.2.2.2])]) ++
    (match start_time with
     | some t => [("starttime", tsFmt t)]
     | none => []) ++
    (match end_time with
     | some t => [("endtime", tsFmt t)]
     | none => []) ++
    (match resolution with
     | some secs => [("timestep", toString (secs / 60))]
     | none => []) ++
    (match parameters with
     | some ps =>
         if 0 < ps.length then [("parameters", String.intercalate "," ps)]
         else []
     | none => [])

/-- The full query-string mapping sent by `get_stored_query`, after
`query_wfs` merges `WFS_PARAMS | params`. -/
def get_stored_query (query_id : String) (place : Place)
    (start_time end_time : Option ℤ) (resolution : Option ℕ)
    (parameters : Option (List String)) : List (String × String) :=
  dictMerge [("service", "WFS"), ("version", "2.0.0")]
    (get_stored_query_params query_id place start_time end_time resolution
      parameters)

/-- `get_stored_query_chunked`: for an open-ended window a single request is
yielded; otherwise `_mk_limits` plans the windows (its validity error is
raised before any request is issued) and one request is yielded per window.
The result models the list of HTTP requests the generator would issue. -/
def get_stored_query_chunked (query_id : String) (fmisid : ℤ)
    (start_time end_time : Option ℤ) (secs : ℕ)
    (parameters : Option (List String)) :
    Except String (List (List (String × String))) :=
  match start_time, end_time with
  | some s, some e =>
      (mk_limits s e secs).map (fun lims =>
        lims.map (fun w =>
          get_stored_query query_id (.fmisid fmisid) (some w.1) (some w.2)
            (some secs) parameters))
  | s, e =>
      .ok [get_stored_query query_id (.fmisid fmisid) s e (some secs)
        parameters]

/-! ## Python float values and numeric literal parsing -/

/-- A python float as the decoders see it: an exact numeric value or NaN
(the "no data" marker of the coverage format). -/
inductive PyFloat where
  | nan
  | num (q : ℚ)
deriving DecidableEq

/-- Split a character list at every occurrence of `c`
(python `str.split(c)`: the empty string gives one empty component,
separators at the ends produce empty components). -/
def splitOnChar (c : Char) : List Char → List (List Char)
  | [] => [[]]
  | a :: as =>
      if a = c then [] :: splitOnChar c as
      else
        match splitOnChar c as with
        | [] => [[a]]
        | r :: rs => (a :: r) :: rs

/-- Python `str.split()` (no separator): split on runs of whitespace,
dropping empty tokens; `acc` holds the reversed current token. -/
def wsTokensAux (acc : List Char) : List Char → List (List Char)
  | [] => if acc.isEmpty then [] else [acc.reverse]
  | a :: as =>
      if a.isWhitespace then
        if acc.isEmpty then wsTokensAux [] as
        else acc.reverse :: wsTokensAux [] as
      else wsTokensAux (a :: acc) as

/-- Python `line.strip().split()` on a string. -/
def pySplitWs (s : String) : List String :=
  (wsTokensAux [] s.data).map String.mk

/-- Python `str.splitlines()` (modulo trailing empty lines, which every
caller skips anyway). -/
def pySplitLines (s : String) : List String :=
  (splitOnChar '\n' s.data).map String.mk

/-- `xml_helpers.get_space_separated` applied to the extracted text: split
into lines, whitespace-split each line, skip empty lines. -/
def get_space_separated (txt : String) : List (List String) :=
  (pySplitLines txt).filterMap (fun line =>
    let tup := pySplitWs line
    if tup.isEmpty then none else some tup)

/-- Numeric value of a nonempty all-digit character list. -/
def digitsVal (l : List Char) : Option ℕ :=
  if l.isEmpty then none
  else
    l.foldl (fun acc c =>
      match acc with
      | some n => if c.isDigit then some (n * 10 + (c.toNat - 48)) else none
      | none => none) (some 0)

/-- Python `int(s)` on an optionally signed digit string. -/
def parseInt (s : String) : Except String ℤ :=
  let core : List Char → Option ℤ := fun l =>
    match l with
    | '-' :: rest => (digitsVal rest).map (fun n => -(n : ℤ))
    | '+' :: rest => (digitsVal rest).map (fun n => (n : ℤ))
    | rest => (digitsVal rest).map (fun n => (n : ℤ))
  match core s.data with
  | some z => .ok z
  | none => .error ("invalid literal for int with base 10: " ++ s)

/-- Python `float(s)` restricted to the forms the service emits: an
optionally signed decimal literal (`123`, `61.5`, `.5`, `7.`) or the
case-insensitive NaN literal.  Exponent and infinity forms are not
modelled. -/
def parseFloat (s : String) : Except String PyFloat :=
  let core : List Char → Option PyFloat := fun l =>
    if l.map Char.toLower = ['n', 'a', 'n'] then some .nan
    else
      match splitOnChar '.' l with
      | [ip] => (digitsVal ip).map (fun n => .num (n : ℚ))
      | [ip, fp] =>
          if ip.isEmpty ∧ fp.isEmpty then none
          else
            match (if ip.isEmpty then some 0 else digitsVal ip),
                (if fp.isEmpty then some 0 else digitsVal fp) with
            | some a, some b =>
                some (.num ((a : ℚ) + (b : ℚ) / (10 : ℚ) ^ fp.length))
            | _, _ => none
      | _ => none
  match s.data with
  | '-' :: rest =>
      match core rest with
      | some .nan => .ok .nan
      | some (.num q) => .ok (.num (-q))
      | none => .error ("could not convert string to float: " ++ s)
  | '+' :: rest =>
      match core rest with
      | some v => .ok v
      | none => .error ("could not convert string to float: " ++ s)
  | rest =>
      match core rest with
      | some v => .ok v
      | none => .error ("could not convert string to float: " ++ s)

/-! ## XML document model

A parsed multipoint-coverage response, holding exactly the elements the
decoders in `xml_helpers.py` access.  `Option` fields model elements whose
absence `find` reports as `None`. -/

/-- A `gml:Point` inside the sampling feature: its `gml:id` attribute, its
`srsName` attribute and the text of its `gml:pos` child. -/
structure GmlPoint where
  gmlId : String
  srsName : String
  pos : String

/-- The `sams:SF_SpatialSamplingFeature` block: its `gml:id` attribute and
the `gml:Point`s under `gml:pointMember` (observation documents) and
`gml:pointMembers` (forecast documents) respectively. -/
structure SamplingFeature where
  gmlId : String
  pointMember : List GmlPoint
  pointMembers : List GmlPoint

/-- The `gmlcov:MultiPointCoverage` element: the text of
`gmlcov:positions`, the `name` attributes of the `swe:field` elements, and
the text of `gml:doubleOrNilReasonTupleList`. -/
structure MultiPointCoverage where
  positionsText : Option String
  fields : List String
  dataText : Option String

/-- The `omso:GridSeriesObservation` element: its `om:featureOfInterest`
sampling feature and its `om:result` coverage. -/
structure GridSeriesObservation where
  samplingFeature : Option SamplingFeature
  coverage : Option MultiPointCoverage

/-- One WFS response document: its first
`wfs:member/omso:GridSeriesObservation`, if any. -/
structure WfsDoc where
  observation : Option GridSeriesObservation

/-- One decoded observation before station resolution:
`(lat, lon, ts, obs_type, obs_val)` as yielded by `_parse_multipoint`. -/
structure ObsTuple where
  lat : PyFloat
  lon : PyFloat
  ts : ℤ
  param : String
  value : PyFloat
deriving DecidableEq

/-! ## Coverage decoding (`xml_helpers`) -/

/-- Monadic map over `Except`, stopping at the first error — the effect of
running a python loop over a generator of fallible steps. -/
def exMapM (f : α → Except ε β) : List α → Except ε (List β)
  | [] => .ok []
  | a :: as =>
      match f a with
      | .error msg => .error msg
      | .ok b =>
          match exMapM f as with
          | .error msg => .error msg
          | .ok bs => .ok (b :: bs)

/-- Monadic fold over `Except`, stopping at the first error. -/
def exFoldl (f : σ → α → Except ε σ) : σ → List α → Except ε σ
  | s, [] => .ok s
  | s, a :: as =>
      match f s a with
      | .error msg => .error msg
      | .ok s2 => exFoldl f s2 as

/-- `extract_elem_text`: the text of an element that must be present. -/
def get_text (name : String) (t : Option String) : Except String String :=
  match t with
  | some s => .ok s
  | none => .error (name ++ " missing")

/-- `get_obs_types`: the ordered `name` attributes of the `swe:field`
declarations. -/
def get_obs_types (mp : MultiPointCoverage) : List String := mp.fields

/-- One record of the positions block:
`(float(record[0]), float(record[1]), int(record[2]))`; a record with fewer
than three tokens raises `IndexError`. -/
def parse_pos_record (record : List String) :
    Except String (PyFloat × PyFloat × ℤ) :=
  match record with
  | lat :: lon :: ts :: _ =>
      match parseInt ts, parseFloat lat, parseFloat lon with
      | .ok t, .ok la, .ok lo => .ok (la, lo, t)
      | .error msg, _, _ => .error msg
      | .ok _, .error msg, _ => .error msg
      | .ok _, .ok _, .error msg => .error msg
  | _ => .error "list index out of range"

/-- `get_lat_lons`: parse every record of the positions block. -/
def get_lat_lons (mp : MultiPointCoverage) :
    Except String (List (PyFloat × PyFloat × ℤ)) :=
  match get_text "data block" mp.positionsText with
  | .error msg => .error msg
  | .ok txt => exMapM parse_pos_record (get_space_separated txt)

/-- One `(obs_type, value-token)` column pair of a data record:
`(obs_t, float(x))`. -/
def parse_field_pair (p : String × String) :
    Except String (String × PyFloat) :=
  match parseFloat p.2 with
  | .error msg => .error msg
  | .ok v => .ok (p.1, v)

/-- One record of the data block, zipped strictly against the parameter
list (`zip(obs_types, record, strict=True)`), pairing the value in each
column with the parameter name of that column. -/
def parse_data_record (obs_types : List String) (record : List String) :
    Except String (List (String × PyFloat)) :=
  if obs_types.length = record.length then
    exMapM parse_field_pair (obs_types.zip record)
  else .error "zip argument lengths differ"

/-- `get_data_block`: parse every record of the data block. -/
def get_data_block (mp : MultiPointCoverage) :
    Except String (List (List (String × PyFloat))) :=
  match get_text "data block" mp.dataText with
  | .error msg => .error msg
  | .ok txt =>
      exMapM (parse_data_record (get_obs_types mp)) (get_space_separated txt)

/-- `_parse_multipoint`: absence of the coverage element is a valid empty
result; otherwise position records and data records are zipped strictly
(`zip(lat_lons, data, strict=True)`) and each record is crossed with its
per-parameter values. -/
def _parse_multipoint (doc : WfsDoc) : Except String (List ObsTuple) :=
  match doc.observation.bind (fun o => o.coverage) with
  | none => .ok []
  | some mp =>
      match get_lat_lons mp with
      | .error msg => .error msg
      | .ok lat_lons =>
          match get_data_block mp with
          | .error msg => .error msg
          | .ok data =>
              if lat_lons.length = data.length then
                .ok ((lat_lons.zip data).flatMap (fun p =>
                  p.2.map (fun o => ⟨p.1.1, p.1.2.1, p.1.2.2, o.1, o.2⟩)))
              else .error "zip argument lengths differ"

/-- Python dict insertion `m[k] = v`: updates the existing binding in place
or appends a new one. -/
def dictInsert {α β : Type} [DecidableEq α] (m : List (α × β)) (k : α)
    (v : β) : List (α × β) :=
  if m.any (fun p => decide (p.1 = k)) then
    m.map (fun p => if p.1 = k then (k, v) else p)
  else m ++ [(k, v)]

/-- Python `dict.get(k)`. -/
def dictGet {α β : Type} [DecidableEq α] (m : List (α × β)) (k : α) :
    Option β :=
  (m.find? (fun p => decide (p.1 = k))).map (·.2)

/-- `int(id_.split("-")[1])` from `get_fmisid_map`: the dash-separated
component following the first dash, parsed as an integer. -/
def parse_station_id (id_ : String) : Except String ℤ :=
  match (splitOnChar '-' id_.data)[1]? with
  | none => .error "list index out of range"
  | some comp => parseInt (String.mk comp)

/-- `lat, lon = extract_elem_text(obs, "position", "gml:pos", ...).split()`
followed by `float` on both components: exactly two whitespace-separated
tokens are required. -/
def coord_of_point (pt : GmlPoint) : Except String (PyFloat × PyFloat) :=
  match pySplitWs pt.pos with
  | [lat, lon] =>
      match parseFloat lat, parseFloat lon with
      | .ok la, .ok lo => .ok (la, lo)
      | .error msg, _ => .error msg
      | .ok _, .error msg => .error msg
  | _ => .error "cannot unpack position"

/-- One iteration of the `get_fmisid_map` loop:
`mapping[(float(lat), float(lon))] = int(id_.split("-")[1])`. -/
def fmisid_map_step (mapping : List ((PyFloat × PyFloat) × ℤ))
    (pt : GmlPoint) : Except String (List ((PyFloat × PyFloat) × ℤ)) :=
  match parse_station_id pt.gmlId with
  | .error msg => .error msg
  | .ok fmisid =>
      match coord_of_point pt with
      | .error msg => .error msg
      | .ok c => .ok (dictInsert mapping c fmisid)

/-- `get_fmisid_map`: checks the fixed sampling-feature id, then binds each
member point coordinate to the station id parsed from the point id. -/
def get_fmisid_map (obs : GridSeriesObservation) :
    Except String (List ((PyFloat × PyFloat) × ℤ)) :=
  match obs.samplingFeature with
  | none => .error "sampling feature missing"
  | some locs =>
      if locs.gmlId = "sampling-feature-1-1-fmisid" then
        exFoldl fmisid_map_step [] locs.pointMember
      else .error ("invalid sampling feature " ++ locs.gmlId)

/-- Station resolution of one decoded tuple: replace the coordinate by its
station id, raising when the coordinate is not listed in the map. -/
def resolve_tuple (fmisid_map : List ((PyFloat × PyFloat) × ℤ))
    (t : ObsTuple) : Except String (ℤ × ℤ × String × PyFloat) :=
  match dictGet fmisid_map (t.lat, t.lon) with
  | none => .error "station not found for coordinate"
  | some fmisid => .ok (fmisid, t.ts, t.param, t.value)

/-- The body of the `parse_multipoint_fmisids` loop for one document: skip
documents without an observation, build the station map, decode, and
replace every decoded coordinate by its station id (an unlisted coordinate
is an error). -/
def fmisids_of_doc (doc : WfsDoc) :
    Except String (List (ℤ × ℤ × String × PyFloat)) :=
  match doc.observation with
  | none => .ok []
  | some obs =>
      match get_fmisid_map obs with
      | .error msg => .error msg
      | .ok fmisid_map =>
          match _parse_multipoint doc with
          | .error msg => .error msg
          | .ok tups => exMapM (resolve_tuple fmisid_map) tups

/-- `parse_multipoint_fmisids` over a stream of documents. -/
def parse_multipoint_fmisids (elems : List WfsDoc) :
    Except String (List (ℤ × ℤ × String × PyFloat)) :=
  match exMapM fmisids_of_doc elems with
  | .error msg => .error msg
  | .ok ls => .ok ls.flatten

/-- `point.Point`: a lat-lon pair with a given projection. -/
structure Point where
  lat : PyFloat
  lon : PyFloat
  projection : String
deriving DecidableEq

/-- `get_projection`: the set of `srsName` attributes over the sampling
feature points (under `gml:pointMembers`); an error unless it has exactly
one element. -/
def get_projection (obs : GridSeriesObservation) : Except String String :=
  let pts := (obs.samplingFeature.map (fun l => l.pointMembers)).getD []
  match (pts.map (fun p => p.srsName)).dedup with
  | [p] => .ok p
  | _ => .error "Non-unique value for projection"

/-- The body of the `parse_multipoint_points` loop for one document: skip
documents without an observation, find the unique projection, decode, and
attach the projection to every decoded coordinate. -/
def points_of_doc (doc : WfsDoc) :
    Except String (List (Point × ℤ × String × PyFloat)) :=
  match doc.observation with
  | none => .ok []
  | some obs =>
      match get_projection obs with
      | .error msg => .error msg
      | .ok projection =>
          match _parse_multipoint doc with
          | .error msg => .error msg
          | .ok tups =>
              .ok (tups.map (fun t =>
                (⟨t.lat, t.lon, projection⟩, t.ts, t.param, t.value)))

/-- `parse_multipoint_points` over a stream of documents. -/
def parse_multipoint_points (elems : List WfsDoc) :
    Except String (List (Point × ℤ × String × PyFloat)) :=
  match exMapM points_of_doc elems with
  | .error msg => .error msg
  | .ok ls => .ok ls.flatten

/-! ## Completeness check (`api.get_stored_query_multipoint`) -/

/-- The completeness check of `get_stored_query_multipoint`, parameterized
by the decoded tuple list `res`: when both bounds were supplied it computes
`len_exp = (end - start) / resolution_seconds` (float division, modelled
exactly in `ℚ`) and warns when the number of distinct timestamps falls
short.  Returns the (unchanged) result together with whether the warning
fired. -/
def multipoint_completeness (start_time end_time : Option ℤ) (secs : ℕ)
    (res : List (ℤ × String × PyFloat)) :
    List (ℤ × String × PyFloat) × Bool :=
  match start_time, end_time with
  | some s, some e =>
      (res, decide ((((res.map (fun r => r.1)).dedup.length : ℚ)) <
        ((e : ℚ) - (s : ℚ)) / (secs : ℚ)))
  | _, _ => (res, false)

/-! ## Concrete documents (used by the witnesses) -/

/-- A well-formed coverage: 3 position records, 2 parameters, 3 data
records (one containing the NaN literal). -/
def mpA : MultiPointCoverage :=
  { positionsText := some "60 25 100\n60 25 200\n61 26 300"
    fields := ["t2m", "ws"]
    dataText := some "1 2\nNaN 4\n5 6" }

def featA : SamplingFeature :=
  { gmlId := "sampling-feature-1-1-fmisid"
    pointMember := [⟨"point-101234", "E", "60 25"⟩,
      ⟨"point-100968", "E", "61 26"⟩]
    pointMembers := [⟨"pA", "EPSG:4258", "60 25"⟩] }

def obsA : GridSeriesObservation := ⟨some featA, some mpA⟩

def docA : WfsDoc := ⟨some obsA⟩

/-- The decode of `docA`. -/
def lA : List ObsTuple :=
  [⟨.num 60, .num 25, 100, "t2m", .num 1⟩,
   ⟨.num 60, .num 25, 100, "ws", .num 2⟩,
   ⟨.num 60, .num 25, 200, "t2m", .nan⟩,
   ⟨.num 60, .num 25, 200, "ws", .num 4⟩,
   ⟨.num 61, .num 26, 300, "t2m", .num 5⟩,
   ⟨.num 61, .num 26, 300, "ws", .num 6⟩]

/-- A malformed coverage: 2 position records but a single data record. -/
def mpMismatch : MultiPointCoverage :=
  { positionsText := some "60 25 100\n61 26 200"
    fields := ["t2m"]
    dataText := some "1" }

def docMismatch : WfsDoc := ⟨some ⟨none, some mpMismatch⟩⟩

/-- An observation with no coverage element. -/
def docEmpty : WfsDoc := ⟨some ⟨none, none⟩⟩

/-- A sampling feature whose point identifier contains two dashes: it ends
in `-34` but the component after the first dash is `12`. -/
def featSuffix : SamplingFeature :=
  { gmlId := "sampling-feature-1-1-fmisid"
    pointMember := [⟨"station-12-34", "E", "60 25"⟩]
    pointMembers := [] }

def obsSuffix : GridSeriesObservation := ⟨some featSuffix, none⟩

/-- A forecast document whose sampling points disagree on the projection. -/
def featBadProj : SamplingFeature :=
  { gmlId := "f"
    pointMember := []
    pointMembers := [⟨"p1", "EPSG:1", "60 25"⟩, ⟨"p2", "EPSG:2", "61 26"⟩] }

def docBadProj : WfsDoc := ⟨some ⟨some featBadProj, none⟩⟩

/-! ## Helper lemmas -/

theorem steppedIn_bounds {s e : ℤ} {secs : ℕ} {t : ℤ}
    (h : steppedIn s e secs t) : s ≤ t ∧ t ≤ e := by
  obtain ⟨k, rfl, hle⟩ := h
  exact ⟨le_add_of_nonneg_right (by positivity), hle⟩

/-- Splitting the stepped grid of `[s, e]` at the grid point `s + m * secs`:
the grid instants up to the split point, plus the grid instants of the rest
of the window starting one step past it. -/
theorem steppedIn_split (s e : ℤ) (secs m : ℕ) (h : s + (m * secs : ℕ) ≤ e)
    (t : ℤ) :
    steppedIn s e secs t ↔
      steppedIn s (s + (m * secs : ℕ)) secs t ∨
        steppedIn (s + (m * secs : ℕ) + secs) e secs t := by
  constructor
  · rintro ⟨k, rfl, hle⟩
    rcases le_or_lt k m with hk | hk
    · left
      refine ⟨k, rfl, ?_⟩
      push_cast
      have : (k : ℤ) * secs ≤ (m : ℤ) * secs := by
        have : (k : ℤ) ≤ m := by exact_mod_cast hk
        exact mul_le_mul_of_nonneg_right this (by positivity)
      linarith
    · right
      refine ⟨k - (m + 1), ?_, hle⟩
      have hk2 : m + 1 ≤ k := hk
      push_cast [Nat.cast_sub hk2]
      ring
  · rintro (⟨k, rfl, hle⟩ | ⟨j, rfl, hle⟩)
    · exact ⟨k, rfl, le_trans hle h⟩
    · refine ⟨m + 1 + j, ?_, hle⟩
      push_cast
      ring

theorem mkLimitsGo_eq_nil (endT : ℤ) (secs diff : ℕ) (hs : 0 < secs)
    (start : ℤ) (h : endT < start) :
    mkLimitsGo endT secs diff hs start = [] := by
  rw [mkLimitsGo, dif_neg (not_le.mpr h)]

theorem mkLimitsGo_eq_cons (endT : ℤ) (secs diff : ℕ) (hs : 0 < secs)
    (start : ℤ) (h : start ≤ endT) :
    mkLimitsGo endT secs diff hs start =
      (start, min (start + (diff : ℤ)) endT) ::
        mkLimitsGo endT secs diff hs (min (start + (diff : ℤ)) endT + secs) := by
  rw [mkLimitsGo, dif_pos h]

theorem mkLimitsGo_single (endT : ℤ) (secs diff : ℕ) (hs : 0 < secs)
    (start : ℤ) (h : start ≤ endT) (h2 : endT ≤ start + (diff : ℤ)) :
    mkLimitsGo endT secs diff hs start = [(start, endT)] := by
  have hmin : min (start + (diff : ℤ)) endT = endT := min_eq_right h2
  rw [mkLimitsGo_eq_cons endT secs diff hs start h, hmin,
    mkLimitsGo_eq_nil endT secs diff hs (endT + secs) (by omega)]

/-- Every window produced by the loop is well-formed and inside the
overall range. -/
theorem mkLimitsGo_bounds (endT : ℤ) (secs diff : ℕ) (hs : 0 < secs)
    (start : ℤ) :
    ∀ w ∈ mkLimitsGo endT secs diff hs start,
      start ≤ w.1 ∧ w.1 ≤ w.2 ∧ w.2 ≤ endT := by
  induction start using mkLimitsGo.induct endT secs diff hs with
  | case1 x hx ih =>
    rw [mkLimitsGo_eq_cons endT secs diff hs x hx]
    intro w hw
    rw [List.mem_cons] at hw
    rcases hw with rfl | hw
    · exact ⟨le_refl _, le_min (le_add_of_nonneg_right (by positivity)) hx,
        min_le_right _ _⟩
    · have := ih w hw
      have hx1 : x ≤ min (x + (diff : ℤ)) endT + secs := by
        have : x ≤ min (x + (diff : ℤ)) endT :=
          le_min (le_add_of_nonneg_right (by positivity)) hx
        have : (0 : ℤ) ≤ secs := by positivity
        omega
      exact ⟨le_trans hx1 this.1, this.2⟩
  | case2 x hx =>
    rw [mkLimitsGo_eq_nil endT secs diff hs x (not_le.mp hx)]
    simp

/-- Each window's successor starts exactly one resolution step after the
window's end. -/
theorem mkLimitsGo_chain (endT : ℤ) (secs diff : ℕ) (hs : 0 < secs)
    (start : ℤ) :
    List.Chain' (fun a b => b.1 = a.2 + (secs : ℤ))
      (mkLimitsGo endT secs diff hs start) := by
  induction start using mkLimitsGo.induct endT secs diff hs with
  | case1 x hx ih =>
    rw [mkLimitsGo_eq_cons endT secs diff hs x hx]
    refine List.chain'_cons'.mpr ⟨?_, ih⟩
    intro b hb
    rcases le_or_lt (min (x + (diff : ℤ)) endT + secs) endT with h1 | h1
    · rw [mkLimitsGo_eq_cons endT secs diff hs _ h1] at hb
      simp only [List.head?_cons, Option.mem_def, Option.some.injEq] at hb
      rw [← hb]
    · rw [mkLimitsGo_eq_nil endT secs diff hs _ h1] at hb
      simp at hb
  | case2 x hx =>
    rw [mkLimitsGo_eq_nil endT secs diff hs x (not_le.mp hx)]
    exact List.chain'_nil

/-- The union of the resolution-grid instants contained in the produced
windows is exactly the resolution grid of the full `[start, endT]` range. -/
theorem mkLimitsGo_union (endT : ℤ) (secs diff : ℕ) (hs : 0 < secs)
    (hd : secs ∣ diff) (start : ℤ) (hse : start ≤ endT) (t : ℤ) :
    (∃ w ∈ mkLimitsGo endT secs diff hs start, steppedIn w.1 w.2 secs t) ↔
      steppedIn start endT secs t := by
  induction start using mkLimitsGo.induct endT secs diff hs with
  | case1 x hx ih =>
    rw [mkLimitsGo_eq_cons endT secs diff hs x hx]
    rcases le_or_lt endT (x + (diff : ℤ)) with hA | hB
    · -- final window: it reaches the end of the range
      have hmin : min (x + (diff : ℤ)) endT = endT := min_eq_right hA
      rw [hmin, mkLimitsGo_eq_nil endT secs diff hs (endT + secs) (by omega)]
      simp
    · -- the window is capped at `x + diff`; split the grid there
      have hmin : min (x + (diff : ℤ)) endT = x + (diff : ℤ) :=
        min_eq_left hB.le
      obtain ⟨m, hm⟩ := hd
      have hmd : (diff : ℤ) = ((m * secs : ℕ) : ℤ) := by
        rw [hm]
        push_cast
        ring
      have hsplit := steppedIn_split x endT secs m
        (by rw [← hmd]; exact hB.le) t
      rw [hmin] at ih
      rw [hmin, hsplit, ← hmd]
      simp only [List.mem_cons, exists_eq_or_imp, hmin]
      rcases le_or_lt (x + (diff : ℤ) + secs) endT with h1 | h1
      · rw [ih h1]
      · rw [mkLimitsGo_eq_nil endT secs diff hs _ h1]
        constructor
        · rintro (h | h)
          · exact Or.inl h
          · simp at h
        · rintro (h | h)
          · exact Or.inl h
          · have := steppedIn_bounds h
            omega
  | case2 x hx =>
    exact absurd hse hx

/-- `mk_limits` errors exactly when the resolution violates the
divisibility rules. -/
theorem mk_limits_error_iff (s e : ℤ) (secs : ℕ) :
    (∃ msg, mk_limits s e secs = .error msg) ↔
      ((3600 < secs ∧ 86400 % secs ≠ 0) ∨ (secs < 3600 ∧ 3600 % secs ≠ 0)) := by
  unfold mk_limits
  by_cases h1 : 3600 < secs ∧ 86400 % secs ≠ 0
  · simp [h1]
  · by_cases h2 : secs < 3600 ∧ 3600 % secs ≠ 0
    · simp [h1, h2]
    · by_cases hs : 0 < secs <;> simp [h1, h2, hs]

theorem except_map_error_iff {α β γ : Type} (x : Except α β) (g : β → γ) :
    (∃ msg, x.map g = .error msg) ↔ (∃ msg, x = .error msg) := by
  cases x <;> simp [Except.map]

/-- C1: for UTC-normalized instants `start ≤ end` and a positive resolution
satisfying the divisibility invariant, `_mk_limits` succeeds and yields
windows that (i) each start one resolution step after the previous window's
end (so no instant is duplicated at a boundary), (ii) are chronologically
ascending and well-formed, and (iii) jointly cover exactly the
resolution-stepped grid `\x7bstart + k*resolution | k ≥ 0, ≤ end\x7d`; a
zero-length window yields exactly one window containing that instant, and a
window shorter than the computed cap yields exactly one window. -/
theorem mk_limits_chunking_correct (start endT : ℤ) (secs : ℕ)
    (hs : 0 < secs)
    (hval : (3600 < secs → 86400 % secs = 0) ∧
      (secs < 3600 → 3600 % secs = 0))
    (hse : start ≤ endT) :
    ∃ L, mk_limits start endT secs = .ok L ∧
      List.Chain' (fun a b => b.1 = a.2 + (secs : ℤ)) L ∧
      List.Chain' (fun a b => a.2 < b.1) L ∧
      (∀ w ∈ L, w.1 ≤ w.2) ∧
      (∀ t, (∃ w ∈ L, steppedIn w.1 w.2 secs t) ↔
        steppedIn start endT secs t) ∧
      (start = endT → L = [(start, start)] ∧ steppedIn start start secs start) ∧
      (endT < start + (chunkDiff secs : ℤ) → L = [(start, endT)]) := by
  have hn1 : ¬(3600 < secs ∧ 86400 % secs ≠ 0) := fun h => h.2 (hval.1 h.1)
  have hn2 : ¬(secs < 3600 ∧ 3600 % secs ≠ 0) := fun h => h.2 (hval.2 h.1)
  have hL : mk_limits start endT secs =
      .ok (mkLimitsGo endT secs (chunkDiff secs) hs start) := by
    unfold mk_limits
    rw [if_neg hn1, if_neg hn2, dif_pos hs]
  have hdvd : secs ∣ chunkDiff secs := by
    unfold chunkDiff
    exact dvd_mul_left secs (chunkCap secs)
  refine ⟨_, hL, mkLimitsGo_chain endT secs (chunkDiff secs) hs start,
    ?_, ?_, ?_, ?_, ?_⟩
  · refine (mkLimitsGo_chain endT secs (chunkDiff secs) hs start).imp ?_
    intro a b hab
    have : (0 : ℤ) < secs := by exact_mod_cast hs
    omega
  · intro w hw
    exact ((mkLimitsGo_bounds endT secs (chunkDiff secs) hs start) w hw).2.1
  · intro t
    exact mkLimitsGo_union endT secs (chunkDiff secs) hs hdvd start hse t
  · rintro rfl
    refine ⟨?_, 0, by simp, le_refl _⟩
    exact mkLimitsGo_single start secs (chunkDiff secs) hs start le_rfl
      (le_add_of_nonneg_right (by positivity))
  · intro hshort
    exact mkLimitsGo_single endT secs (chunkDiff secs) hs start hse hshort.le

/-- Witness for `mk_limits_chunking_correct` at
`start = 0`, `end = 7200`, `resolution = 3600` seconds. -/
theorem mk_limits_chunking_correct_witness :
    0 < 3600 ∧ ((3600 < 3600 → 86400 % 3600 = 0) ∧
      (3600 < 3600 → 3600 % 3600 = 0)) ∧ (0 : ℤ) ≤ 7200 ∧
      ∃ L, mk_limits 0 7200 3600 = .ok L ∧
        (∀ t, (∃ w ∈ L, steppedIn w.1 w.2 3600 t) ↔
          steppedIn 0 7200 3600 t) := by
  refine ⟨by decide, by decide, by decide, ?_⟩
  obtain ⟨L, hok, -, -, -, hu, -, -⟩ :=
    mk_limits_chunking_correct 0 7200 3600 (by decide) (by decide) (by decide)
  exact ⟨L, hok, hu⟩

/-- C2: constructing the chunked query fails (with the invalid-resolution
error, raised while planning, before any request of the yielded list is
issued) iff the resolution exceeds an hour without dividing 86400 seconds,
or is below an hour without dividing 3600 seconds; exactly one hour is
always valid. -/
theorem chunked_invalid_resolution_iff (secs : ℕ) (hs : 0 < secs)
    (s e : ℤ) (qid : String) (f : ℤ) (prms : Option (List String)) :
    ((∃ msg, mk_limits s e secs = .error msg) ↔
        ((3600 < secs ∧ 86400 % secs ≠ 0) ∨
          (secs < 3600 ∧ 3600 % secs ≠ 0))) ∧
    ((∃ msg, get_stored_query_chunked qid f (some s) (some e) secs prms =
          .error msg) ↔
        ((3600 < secs ∧ 86400 % secs ≠ 0) ∨
          (secs < 3600 ∧ 3600 % secs ≠ 0))) := by
  refine ⟨mk_limits_error_iff s e secs, ?_⟩
  rw [← mk_limits_error_iff s e secs]
  exact except_map_error_iff (mk_limits s e secs) _

/-- Witness for `chunked_invalid_resolution_iff`: 7 minutes and 5 hours are
rejected; 1 hour, 10 minutes and 24 hours are accepted. -/
theorem chunked_invalid_resolution_iff_witness :
    (∃ msg, mk_limits 0 0 420 = .error msg) ∧
    (∃ msg, get_stored_query_chunked "q" 1 (some 0) (some 0) 18000 none =
      .error msg) ∧
    ¬(∃ msg, mk_limits 0 0 3600 = .error msg) ∧
    ¬(∃ msg, mk_limits 0 0 600 = .error msg) ∧
    ¬(∃ msg, mk_limits 0 0 86400 = .error msg) := by
  refine ⟨?_, ?_, ?_, ?_, ?_⟩
  · exact ((chunked_invalid_resolution_iff 420 (by decide) 0 0 "q" 1
      none).1).mpr (by decide)
  · exact ((chunked_invalid_resolution_iff 18000 (by decide) 0 0 "q" 1
      none).2).mpr (by decide)
  · intro h
    exact absurd (((chunked_invalid_resolution_iff 3600 (by decide) 0 0 "q" 1
      none).1).mp h) (by decide)
  · intro h
    exact absurd (((chunked_invalid_resolution_iff 600 (by decide) 0 0 "q" 1
      none).1).mp h) (by decide)
  · intro h
    exact absurd (((chunked_invalid_resolution_iff 86400 (by decide) 0 0 "q" 1
      none).1).mp h) (by decide)

/-- C9: with an open-ended window (either bound `None`) the chunked
retrieval issues exactly one request — no chunking, whatever the
resolution or configured cap. -/
theorem chunked_open_window_single_request (qid : String) (f : ℤ)
    (st et : Option ℤ) (secs : ℕ) (prms : Option (List String))
    (h : st = none ∨ et = none) :
    get_stored_query_chunked qid f st et secs prms =
      .ok [get_stored_query qid (.fmisid f) st et (some secs) prms] := by
  rcases h with rfl | rfl
  · cases et <;> rfl
  · cases st <;> rfl

/-- Witness for `chunked_open_window_single_request` with `start = None`
and an (invalid-resolution) 7-minute step: still a single request. -/
theorem chunked_open_window_single_request_witness :
    ((none : Option ℤ) = none ∨ (some (0 : ℤ)) = none) ∧
    get_stored_query_chunked "fmi::q" 1 none (some 0) 420 none =
      .ok [get_stored_query "fmi::q" (.fmisid 1) none (some 0) (some 420)
        none] :=
  ⟨Or.inl rfl, chunked_open_window_single_request "fmi::q" 1 none (some 0)
    420 none (Or.inl rfl)⟩

/-- C4: the completeness check returns the decoded result unchanged in all
cases (it never raises), and — when both bounds are supplied — warns exactly
when the number of distinct timestamps falls short of
`(end - start) / resolution`. -/
theorem multipoint_completeness_nonfatal (s e : ℤ) (secs : ℕ)
    (hs : 0 < secs) (res : List (ℤ × String × PyFloat)) :
    (∀ st et : Option ℤ, (multipoint_completeness st et secs res).1 = res) ∧
    ((multipoint_completeness (some s) (some e) secs res).2 = true ↔
      (((res.map (fun r => r.1)).dedup.length : ℚ) <
        ((e : ℚ) - (s : ℚ)) / (secs : ℚ))) := by
  constructor
  · intro st et
    cases st <;> cases et <;> rfl
  · simp [multipoint_completeness]

/-- Witness for `multipoint_completeness_nonfatal`: a one-hour window at
hourly resolution with an empty decoded result — the result is returned
unchanged (and the shortfall is only a warning flag). -/
theorem multipoint_completeness_nonfatal_witness :
    0 < 3600 ∧
    (multipoint_completeness (some 0) (some 3600) 3600 []).1 = [] ∧
    (multipoint_completeness (some 0) (some 3600) 3600 []).2 = true := by
  refine ⟨by decide, ?_, ?_⟩
  · exact (multipoint_completeness_nonfatal 0 3600 3600 (by decide) []).1
      (some 0) (some 3600)
  · refine ((multipoint_completeness_nonfatal 0 3600 3600 (by decide)
      []).2).mpr ?_
    norm_num

set_option maxHeartbeats 2000000 in
/-- C7: the request parameter encoding of `get_stored_query` merged with the
base WFS parameters: `service=WFS` and `version=2.0.0` always present along
with `request=getFeature` and `storedquery_id=<id>`; an integer place is
encoded as `fmisid=<int>` and a 4-tuple place as `bbox` with comma-joined
values; start and end times, when given, are formatted in UTC as
`YYYY-MM-DDTHH:MM:SSZ` (second precision, as witnessed by the concrete
renderings below); `timestep` is the resolution in truncated integer
minutes; and `parameters` is the comma-joined names exactly when a
non-empty parameter list is requested. -/
theorem get_stored_query_request_encoding :
    (∀ (qid : String) (place : Place) (st et : Option ℤ) (res : Option ℕ)
        (prms : Option (List String)),
      lookupParam (get_stored_query qid place st et res prms) "service" =
        some "WFS" ∧
      lookupParam (get_stored_query qid place st et res prms) "version" =
        some "2.0.0" ∧
      lookupParam (get_stored_query qid place st et res prms) "request" =
        some "getFeature" ∧
      lookupParam (get_stored_query qid place st et res prms)
        "storedquery_id" = some qid ∧
      lookupParam (get_stored_query qid place st et res prms) "starttime" =
        st.map tsFmt ∧
      lookupParam (get_stored_query qid place st et res prms) "endtime" =
        et.map tsFmt ∧
      lookupParam (get_stored_query qid place st et res prms) "timestep" =
        res.map (fun secs => toString (secs / 60)) ∧
      lookupParam (get_stored_query qid place st et res prms) "parameters" =
        (match prms with
         | some ps =>
             if 0 < ps.length then some (String.intercalate "," ps) else none
         | none => none)) ∧
    (∀ (qid : String) (n : ℤ) (st et : Option ℤ) (res : Option ℕ)
        (prms : Option (List String)),
      lookupParam (get_stored_query qid (.fmisid n) st et res prms)
        "fmisid" = some (toString n) ∧
      lookupParam (get_stored_query qid (.fmisid n) st et res prms)
        "bbox" = none) ∧
    (∀ (qid : String) (b : ℚ × ℚ × ℚ × ℚ) (st et : Option ℤ) (res : Option ℕ)
        (prms : Option (List String)),
      lookupParam (get_stored_query qid (.bbox b) st et res prms) "bbox" =
        some (String.intercalate ","
          [ratStr b.1, ratStr b.2.1, ratStr b.2.2.1, ratStr b.2.2.2]) ∧
      lookupParam (get_stored_query qid (.bbox b) st et res prms)
        "fmisid" = none) ∧
    tsFmt 1234567890 = "2009-02-13T23:31:30Z" ∧
    tsFmt 1735689600 = "2025-01-01T00:00:00Z" := by
  refine ⟨?_, ?_, ?_, by rfl, by rfl⟩
  · intro qid place st et res prms
    rcases place with n | b <;> rcases st with _ | s <;> rcases et with _ | e <;>
      rcases res with _ | r <;> rcases prms with _ | ⟨_ | ⟨p0, ps⟩⟩ <;>
      simp [get_stored_query, get_stored_query_params, dictMerge, lookupParam]
  · intro qid n st et res prms
    rcases st with _ | s <;> rcases et with _ | e <;>
      rcases res with _ | r <;> rcases prms with _ | ⟨_ | ⟨p0, ps⟩⟩ <;>
      simp [get_stored_query, get_stored_query_params, dictMerge, lookupParam]
  · intro qid b st et res prms
    rcases st with _ | s <;> rcases et with _ | e <;>
      rcases res with _ | r <;> rcases prms with _ | ⟨_ | ⟨p0, ps⟩⟩ <;>
      simp [get_stored_query, get_stored_query_params, dictMerge, lookupParam]

/-! ### `Except` and list plumbing lemmas -/

theorem except_error_of_not_ok {ε β : Type} {x : Except ε β}
    (h : ∀ b, x ≠ .ok b) : ∃ msg, x = .error msg := by
  cases x with
  | error msg => exact ⟨msg, rfl⟩
  | ok b => exact absurd rfl (h b)

theorem exMapM_ok_length {α β ε : Type} (f : α → Except ε β) :
    ∀ (l : List α) (ys : List β), exMapM f l = .ok ys →
      ys.length = l.length := by
  intro l
  induction l with
  | nil =>
    intro ys h
    simp only [exMapM, Except.ok.injEq] at h
    subst h
    rfl
  | cons a as ih =>
    intro ys h
    cases hfa : f a with
    | error msg => simp [exMapM, hfa] at h
    | ok b =>
      cases hr : exMapM f as with
      | error msg => simp [exMapM, hfa, hr] at h
      | ok bs =>
        simp only [exMapM, hfa, hr, Except.ok.injEq] at h
        subst h
        simp [ih bs hr]

theorem exMapM_ok_get {α β ε : Type} (f : α → Except ε β) :
    ∀ (l : List α) (ys : List β), exMapM f l = .ok ys →
      ∀ (i : ℕ) (a : α), l[i]? = some a →
        ∃ b, ys[i]? = some b ∧ f a = .ok b := by
  intro l
  induction l with
  | nil =>
    intro ys h i a ha
    simp at ha
  | cons x as ih =>
    intro ys h i a ha
    cases hfa : f x with
    | error msg => simp [exMapM, hfa] at h
    | ok b =>
      cases hr : exMapM f as with
      | error msg => simp [exMapM, hfa, hr] at h
      | ok bs =>
        simp only [exMapM, hfa, hr, Except.ok.injEq] at h
        subst h
        cases i with
        | zero =>
          simp only [List.getElem?_cons_zero, Option.some.injEq] at ha
          subst ha
          exact ⟨b, by simp, hfa⟩
        | succ n =>
          simp only [List.getElem?_cons_succ] at ha ⊢
          exact ih bs hr n a ha

theorem exMapM_ok_mem {α β ε : Type} (f : α → Except ε β) :
    ∀ (l : List α) (ys : List β), exMapM f l = .ok ys →
      ∀ y ∈ ys, ∃ a ∈ l, f a = .ok y := by
  intro l
  induction l with
  | nil =>
    intro ys h y hy
    simp only [exMapM, Except.ok.injEq] at h
    subst h
    simp at hy
  | cons x as ih =>
    intro ys h y hy
    cases hfa : f x with
    | error msg => simp [exMapM, hfa] at h
    | ok b =>
      cases hr : exMapM f as with
      | error msg => simp [exMapM, hfa, hr] at h
      | ok bs =>
        simp only [exMapM, hfa, hr, Except.ok.injEq] at h
        subst h
        rw [List.mem_cons] at hy
        rcases hy with rfl | hy
        · exact ⟨x, by simp, hfa⟩
        · obtain ⟨a, ha, hfa2⟩ := ih bs hr y hy
          exact ⟨a, by simp [ha], hfa2⟩

theorem exMapM_error_of_fail {α β ε : Type} (f : α → Except ε β) :
    ∀ (l : List α) (a : α), a ∈ l → (∀ b, f a ≠ .ok b) →
      ∃ msg, exMapM f l = .error msg := by
  intro l
  induction l with
  | nil =>
    intro a ha
    simp at ha
  | cons x as ih =>
    intro a ha hfail
    rw [List.mem_cons] at ha
    cases hfa : f x with
    | error msg => exact ⟨msg, by simp [exMapM, hfa]⟩
    | ok b =>
      rcases ha with rfl | ha
      · exact absurd hfa (hfail b)
      · obtain ⟨msg, hm⟩ := ih a ha hfail
        exact ⟨msg, by simp [exMapM, hfa, hm]⟩

theorem flatten_const_length {α : Type} (m : ℕ) :
    ∀ (L : List (List α)), (∀ r ∈ L, r.length = m) →
      L.flatten.length = L.length * m := by
  intro L
  induction L with
  | nil => simp
  | cons r L ih =>
    intro hall
    have hr : r.length = m := hall r (by simp)
    have := ih (fun x hx => hall x (by simp [hx]))
    simp only [List.flatten_cons, List.length_append, List.length_cons, this,
      hr]
    ring

theorem flatten_const_getElem {α : Type} (m : ℕ) :
    ∀ (L : List (List α)), (∀ r ∈ L, r.length = m) →
      ∀ (i j : ℕ), j < m →
        L.flatten[i * m + j]? = (L[i]?).bind (fun r => r[j]?) := by
  intro L
  induction L with
  | nil =>
    intro _ i j _
    simp
  | cons r L ih =>
    intro hall i j hj
    have hr : r.length = m := hall r (by simp)
    cases i with
    | zero =>
      have hz : 0 * m + j = j := by omega
      rw [hz, List.flatten_cons, List.getElem?_append, if_pos (by omega)]
      simp
    | succ n =>
      simp only [List.flatten_cons]
      rw [List.getElem?_append_right (by rw [hr]; nlinarith)]
      have harith : (n + 1) * m + j - r.length = n * m + j := by
        rw [hr]
        have : (n + 1) * m = n * m + m := by ring
        omega
      rw [harith, ih (fun x hx => hall x (by simp [hx])) n j hj]
      simp

/-! ### Decoder inversion lemmas -/

theorem get_lat_lons_ok_inv {mp : MultiPointCoverage} {ptxt : String}
    (hp : mp.positionsText = some ptxt)
    {L : List (PyFloat × PyFloat × ℤ)} (h : get_lat_lons mp = .ok L) :
    exMapM parse_pos_record (get_space_separated ptxt) = .ok L := by
  unfold get_lat_lons at h
  rw [hp] at h
  simpa [get_text] using h

theorem get_data_block_ok_inv {mp : MultiPointCoverage} {dtxt : String}
    (hd : mp.dataText = some dtxt)
    {rows : List (List (String × PyFloat))} (h : get_data_block mp = .ok rows) :
    exMapM (parse_data_record (get_obs_types mp)) (get_space_separated dtxt) =
      .ok rows := by
  unfold get_data_block at h
  rw [hd] at h
  simpa [get_text] using h

theorem parse_data_record_ok_inv {obs_types record : List String}
    {row : List (String × PyFloat)}
    (h : parse_data_record obs_types record = .ok row) :
    obs_types.length = record.length ∧
      exMapM parse_field_pair (obs_types.zip record) = .ok row := by
  unfold parse_data_record at h
  by_cases hl : obs_types.length = record.length
  · rw [if_pos hl] at h
    exact ⟨hl, h⟩
  · rw [if_neg hl] at h
    exact absurd h (by simp)

theorem parse_data_record_ok_length {obs_types record : List String}
    {row : List (String × PyFloat)}
    (h : parse_data_record obs_types record = .ok row) :
    row.length = obs_types.length := by
  obtain ⟨hl, hmap⟩ := parse_data_record_ok_inv h
  rw [exMapM_ok_length parse_field_pair _ _ hmap, List.length_zip]
  omega

theorem obs_bind_coverage {doc : WfsDoc} {obs : GridSeriesObservation}
    {mp : MultiPointCoverage} (hobs : doc.observation = some obs)
    (hcov : obs.coverage = some mp) :
    doc.observation.bind (fun o => o.coverage) = some mp := by
  rw [hobs]
  simpa using hcov

theorem parse_multipoint_eq {doc : WfsDoc} {mp : MultiPointCoverage}
    (hmp : doc.observation.bind (fun o => o.coverage) = some mp) :
    _parse_multipoint doc =
      match get_lat_lons mp with
      | .error msg => .error msg
      | .ok lat_lons =>
          match get_data_block mp with
          | .error msg => .error msg
          | .ok data =>
              if lat_lons.length = data.length then
                .ok ((lat_lons.zip data).flatMap (fun p =>
                  p.2.map (fun o => ⟨p.1.1, p.1.2.1, p.1.2.2, o.1, o.2⟩)))
              else .error "zip argument lengths differ" := by
  unfold _parse_multipoint
  rw [hmp]

theorem parse_multipoint_ok_inv {doc : WfsDoc} {mp : MultiPointCoverage}
    (hmp : doc.observation.bind (fun o => o.coverage) = some mp)
    {l : List ObsTuple} (h : _parse_multipoint doc = .ok l) :
    ∃ L1 L2, get_lat_lons mp = .ok L1 ∧ get_data_block mp = .ok L2 ∧
      L1.length = L2.length ∧
      l = (L1.zip L2).flatMap (fun p =>
        p.2.map (fun o => ⟨p.1.1, p.1.2.1, p.1.2.2, o.1, o.2⟩)) := by
  rw [parse_multipoint_eq hmp] at h
  split at h
  · exact absurd h (by simp)
  · rename_i L1 heq1
    split at h
    · exact absurd h (by simp)
    · rename_i L2 heq2
      by_cases hlen : L1.length = L2.length
      · rw [if_pos hlen] at h
        simp only [Except.ok.injEq] at h
        exact ⟨L1, L2, heq1, heq2, hlen, h.symm⟩
      · rw [if_neg hlen] at h
        exact absurd h (by simp)

theorem parse_field_pair_ok_inv {p : String × String} {y : String × PyFloat}
    (h : parse_field_pair p = .ok y) :
    y.1 = p.1 ∧ parseFloat p.2 = .ok y.2 := by
  unfold parse_field_pair at h
  split at h
  · exact absurd h (by simp)
  · rename_i v hv
    simp only [Except.ok.injEq] at h
    rw [← h]
    exact ⟨rfl, hv⟩

/-- C5: the decoder pairs position records with data records strictly by
position — a count mismatch between the two blocks, or a data record whose
value count differs from the parameter list, fails the decode instead of
truncating to the shorter block. -/
theorem coverage_strict_zip (doc : WfsDoc) (obs : GridSeriesObservation)
    (mp : MultiPointCoverage) (ptxt dtxt : String)
    (hobs : doc.observation = some obs) (hcov : obs.coverage = some mp)
    (hp : mp.positionsText = some ptxt) (hd : mp.dataText = some dtxt) :
    ((get_space_separated ptxt).length ≠ (get_space_separated dtxt).length →
      ∃ msg, _parse_multipoint doc = .error msg) ∧
    (∀ rec ∈ get_space_separated dtxt,
      rec.length ≠ (get_obs_types mp).length →
      ∃ msg, _parse_multipoint doc = .error msg) := by
  have hmp := obs_bind_coverage hobs hcov
  constructor
  · intro hne
    refine except_error_of_not_ok ?_
    intro l hok
    obtain ⟨L1, L2, h1, h2, hlen, -⟩ := parse_multipoint_ok_inv hmp hok
    have e1 := exMapM_ok_length _ _ _ (get_lat_lons_ok_inv hp h1)
    have e2 := exMapM_ok_length _ _ _ (get_data_block_ok_inv hd h2)
    exact hne (by omega)
  · intro rec hrec hlen
    refine except_error_of_not_ok ?_
    intro l hok
    obtain ⟨L1, L2, h1, h2, -, -⟩ := parse_multipoint_ok_inv hmp hok
    have hex := get_data_block_ok_inv hd h2
    have hfail : ∀ b, parse_data_record (get_obs_types mp) rec ≠ .ok b := by
      intro b hb
      unfold parse_data_record at hb
      rw [if_neg (fun hc => hlen (by omega))] at hb
      exact absurd hb (by simp)
    obtain ⟨msg, hm⟩ := exMapM_error_of_fail _ _ rec hrec hfail
    rw [hm] at hex
    exact absurd hex (by simp)

/-- Witness for `coverage_strict_zip`: two position records against one
data record fail the decode. -/
theorem coverage_strict_zip_witness :
    (get_space_separated "60 25 100\n61 26 200").length ≠
      (get_space_separated "1").length ∧
    ∃ msg, _parse_multipoint docMismatch = .error msg := by
  refine ⟨by decide, ?_⟩
  exact (coverage_strict_zip docMismatch ⟨none, some mpMismatch⟩ mpMismatch
    "60 25 100\n61 26 200" "1" rfl rfl rfl rfl).1 (by decide)

/-- C6: with `n` position records aligned to `n` data records over an
`m`-element parameter list, the decode yields exactly `n * m` tuples, the
tuple at index `i * m + j` carrying the parameter name of column `j` and
the parsed value of token `j` of data record `i`; a document with no
coverage element decodes to the empty list, not an error. -/
theorem coverage_decode_shape :
    (∀ doc : WfsDoc, doc.observation.bind (fun o => o.coverage) = none →
      _parse_multipoint doc = .ok []) ∧
    (∀ (doc : WfsDoc) (obs : GridSeriesObservation) (mp : MultiPointCoverage)
        (ptxt dtxt : String) (l : List ObsTuple),
      doc.observation = some obs → obs.coverage = some mp →
      mp.positionsText = some ptxt → mp.dataText = some dtxt →
      _parse_multipoint doc = .ok l →
      l.length =
        (get_space_separated ptxt).length * (get_obs_types mp).length ∧
      (∀ (i j : ℕ) (rec : List String) (tok : String),
        (get_space_separated dtxt)[i]? = some rec → rec[j]? = some tok →
        ∃ t : ObsTuple, l[i * (get_obs_types mp).length + j]? = some t ∧
          (get_obs_types mp)[j]? = some t.param ∧
          parseFloat tok = .ok t.value)) := by
  constructor
  · intro doc h
    unfold _parse_multipoint
    rw [h]
  · intro doc obs mp ptxt dtxt l hobs hcov hp hd hok
    have hmp := obs_bind_coverage hobs hcov
    obtain ⟨L1, L2, h1, h2, hlen, hl⟩ := parse_multipoint_ok_inv hmp hok
    have hexp := get_lat_lons_ok_inv hp h1
    have hexd := get_data_block_ok_inv hd h2
    have e1 := exMapM_ok_length _ _ _ hexp
    have e2 := exMapM_ok_length _ _ _ hexd
    have hall : ∀ r ∈ (L1.zip L2).map (fun p =>
        p.2.map (fun o =>
          (⟨p.1.1, p.1.2.1, p.1.2.2, o.1, o.2⟩ : ObsTuple))),
        r.length = (get_obs_types mp).length := by
      intro r hr
      rw [List.mem_map] at hr
      obtain ⟨p, hp2, rfl⟩ := hr
      have hmem := (List.of_mem_zip hp2).2
      obtain ⟨a, -, hfa⟩ := exMapM_ok_mem _ _ _ hexd p.2 hmem
      simp [parse_data_record_ok_length hfa]
    constructor
    · rw [hl, List.flatMap_def,
        flatten_const_length (get_obs_types mp).length _ hall,
        List.length_map, List.length_zip]
      have : L1.length ⊓ L2.length = (get_space_separated ptxt).length := by
        omega
      rw [this]
    · intro i j rec tok hrec htok
      obtain ⟨rowD, hrowD, hpd⟩ := exMapM_ok_get _ _ _ hexd i rec hrec
      obtain ⟨hlen2, hmapD⟩ := parse_data_record_ok_inv hpd
      have hj : j < rec.length := (List.getElem?_eq_some.mp htok).1
      have hjm : j < (get_obs_types mp).length := by omega
      have hi : i < (get_space_separated dtxt).length :=
        (List.getElem?_eq_some.mp hrec).1
      have hiL1 : i < L1.length := by omega
      obtain ⟨pos, hpos⟩ : ∃ pos, L1[i]? = some pos :=
        ⟨_, List.getElem?_eq_getElem hiL1⟩
      have hzipi : (L1.zip L2)[i]? = some (pos, rowD) :=
        List.getElem?_zip_eq_some.mpr ⟨hpos, hrowD⟩
      obtain ⟨name, hname⟩ : ∃ name, (get_obs_types mp)[j]? = some name :=
        ⟨_, List.getElem?_eq_getElem hjm⟩
      have hzipj : ((get_obs_types mp).zip rec)[j]? = some (name, tok) :=
        List.getElem?_zip_eq_some.mpr ⟨hname, htok⟩
      obtain ⟨y, hyj, hfp⟩ := exMapM_ok_get _ _ _ hmapD j (name, tok) hzipj
      obtain ⟨hy1, hy2⟩ := parse_field_pair_ok_inv hfp
      refine ⟨⟨pos.1, pos.2.1, pos.2.2, y.1, y.2⟩, ?_, ?_, hy2⟩
      · rw [hl, List.flatMap_def,
          flatten_const_getElem (get_obs_types mp).length _ hall i j hjm,
          List.getElem?_map, hzipi]
        simp [hyj]
      · show (get_obs_types mp)[j]? = some y.1
        rw [hy1]
        exact hname

/-- Witness for `coverage_decode_shape`: 3 position records with 2
parameters decode to exactly 6 tuples, and a coverage-free document
decodes to the empty list. -/
theorem coverage_decode_shape_witness :
    (_parse_multipoint docA = .ok lA ∧
      lA.length = (get_space_separated "60 25 100\n60 25 200\n61 26 300").length *
        (get_obs_types mpA).length ∧ lA.length = 6) ∧
    _parse_multipoint docEmpty = .ok [] := by
  refine ⟨⟨by rfl, ?_, by rfl⟩, ?_⟩
  · exact ((coverage_decode_shape).2 docA obsA mpA
      "60 25 100\n60 25 200\n61 26 300" "1 2\nNaN 4\n5 6" lA rfl rfl rfl rfl
      (by rfl)).1
  · exact (coverage_decode_shape).1 docEmpty rfl

/-- C8: the NaN literal in a data column decodes to NaN without raising,
and the NaN-valued pair is kept in the decoded record at its column
position rather than dropped. -/
theorem data_block_nan_preserved :
    (parseFloat "NaN" = .ok PyFloat.nan) ∧
    (∀ (mp : MultiPointCoverage) (dtxt : String)
        (rows : List (List (String × PyFloat))) (i j : ℕ) (rec : List String),
      mp.dataText = some dtxt → get_data_block mp = .ok rows →
      (get_space_separated dtxt)[i]? = some rec → rec[j]? = some "NaN" →
      ∃ row name, rows[i]? = some row ∧ (get_obs_types mp)[j]? = some name ∧
        row[j]? = some (name, PyFloat.nan)) := by
  refine ⟨rfl, ?_⟩
  intro mp dtxt rows i j rec hd hrows hrec htok
  have hex := get_data_block_ok_inv hd hrows
  obtain ⟨row, hrow, hpd⟩ := exMapM_ok_get _ _ _ hex i rec hrec
  obtain ⟨hlen, hmap⟩ := parse_data_record_ok_inv hpd
  have hj : j < rec.length := (List.getElem?_eq_some.mp htok).1
  have hjo : j < (get_obs_types mp).length := by omega
  obtain ⟨name, hname⟩ : ∃ name, (get_obs_types mp)[j]? = some name :=
    ⟨_, List.getElem?_eq_getElem hjo⟩
  have hzip : ((get_obs_types mp).zip rec)[j]? = some (name, "NaN") :=
    List.getElem?_zip_eq_some.mpr ⟨hname, htok⟩
  obtain ⟨y, hy, hfp⟩ := exMapM_ok_get _ _ _ hmap j (name, "NaN") hzip
  have hnan : parse_field_pair (name, "NaN") = .ok (name, PyFloat.nan) := rfl
  rw [hnan] at hfp
  simp only [Except.ok.injEq] at hfp
  rw [← hfp] at hy
  exact ⟨row, name, hrow, hname, hy⟩

/-- Witness for `data_block_nan_preserved`: the NaN in record 1, column 0
of `mpA` is preserved in the decoded data block. -/
theorem data_block_nan_preserved_witness :
    mpA.dataText = some "1 2\nNaN 4\n5 6" ∧
    ∃ rows, get_data_block mpA = .ok rows ∧
      ∃ row name, rows[1]? = some row ∧ (get_obs_types mpA)[0]? = some name ∧
        row[0]? = some (name, PyFloat.nan) := by
  refine ⟨rfl, [[("t2m", .num 1), ("ws", .num 2)],
    [("t2m", .nan), ("ws", .num 4)],
    [("t2m", .num 5), ("ws", .num 6)]], by rfl, ?_⟩
  exact (data_block_nan_preserved).2 mpA "1 2\nNaN 4\n5 6" _ 1 0 ["NaN", "4"]
    rfl (by rfl) (by rfl) (by rfl)

/-! ### Python dict lemmas -/

theorem dictGet_map_update {α β : Type} [DecidableEq α]
    (m : List (α × β)) (k k2 : α) (v : β) (h : k2 ≠ k) :
    dictGet (m.map (fun p => if p.1 = k then (k, v) else p)) k2 =
      dictGet m k2 := by
  induction m with
  | nil => rfl
  | cons p m ih =>
    unfold dictGet at *
    simp only [List.map_cons]
    by_cases hpk : p.1 = k
    · rw [List.find?_cons_of_neg _ (by simp [hpk, Ne.symm h]),
        List.find?_cons_of_neg _ (by simp [hpk, Ne.symm h])]
      exact ih
    · rw [if_neg hpk]
      by_cases hpk2 : p.1 = k2
      · rw [List.find?_cons_of_pos _ (by simp [hpk2]),
          List.find?_cons_of_pos _ (by simp [hpk2])]
      · rw [List.find?_cons_of_neg _ (by simp [hpk2]),
          List.find?_cons_of_neg _ (by simp [hpk2])]
        exact ih

theorem dictGet_map_update_self {α β : Type} [DecidableEq α]
    (m : List (α × β)) (k : α) (v : β)
    (hany : m.any (fun p => decide (p.1 = k)) = true) :
    dictGet (m.map (fun p => if p.1 = k then (k, v) else p)) k = some v := by
  induction m with
  | nil => simp at hany
  | cons p m ih =>
    simp only [List.any_cons, Bool.or_eq_true, decide_eq_true_eq] at hany
    simp only [List.map_cons]
    unfold dictGet
    by_cases hpk : p.1 = k
    · rw [if_pos hpk, List.find?_cons_of_pos _ (by simp)]
      rfl
    · rw [if_neg hpk, List.find?_cons_of_neg _ (by simp [hpk])]
      rcases hany with h | h
      · exact absurd h hpk
      · exact ih h

theorem dictGet_append {α β : Type} [DecidableEq α]
    (m1 m2 : List (α × β)) (k : α) :
    dictGet (m1 ++ m2) k =
      match dictGet m1 k with
      | some v => some v
      | none => dictGet m2 k := by
  induction m1 with
  | nil => rfl
  | cons p m1 ih =>
    unfold dictGet at *
    simp only [List.cons_append]
    by_cases hpk : p.1 = k
    · rw [List.find?_cons_of_pos _ (by simp [hpk]),
        List.find?_cons_of_pos _ (by simp [hpk])]
      rfl
    · rw [List.find?_cons_of_neg _ (by simp [hpk]),
        List.find?_cons_of_neg _ (by simp [hpk])]
      exact ih

theorem dictGet_none_of_not_any {α β : Type} [DecidableEq α]
    {m : List (α × β)} {k : α}
    (h : ¬ m.any (fun p => decide (p.1 = k)) = true) :
    dictGet m k = none := by
  unfold dictGet
  rw [List.find?_eq_none.mpr]
  · rfl
  · intro p hp hpk
    exact h (List.any_eq_true.mpr ⟨p, hp, hpk⟩)

/-- Python dict semantics: a lookup after insertion finds the inserted
value at the inserted key and is unchanged elsewhere. -/
theorem dictGet_dictInsert {α β : Type} [DecidableEq α]
    (m : List (α × β)) (k k2 : α) (v : β) :
    dictGet (dictInsert m k v) k2 =
      if k2 = k then some v else dictGet m k2 := by
  unfold dictInsert
  by_cases hany : m.any (fun p => decide (p.1 = k)) = true
  · rw [if_pos hany]
    by_cases hk : k2 = k
    · subst hk
      rw [if_pos rfl]
      exact dictGet_map_update_self m k2 v hany
    · rw [if_neg hk]
      exact dictGet_map_update m k k2 v hk
  · rw [if_neg hany, dictGet_append]
    by_cases hk : k2 = k
    · subst hk
      rw [if_pos rfl, dictGet_none_of_not_any hany]
      simp [dictGet]
    · rw [if_neg hk]
      cases hres : dictGet m k2 with
      | none =>
        show dictGet [(k, v)] k2 = none
        unfold dictGet
        rw [List.find?_cons_of_neg _ (by simp [Ne.symm hk])]
        rfl
      | some v2 => rfl

/-- Invariant of the `get_fmisid_map` loop: every binding of the final map
comes from the initial map or from a processed point (yielding the id
parsed from the component after the first dash of the point id); bindings
are never dropped; and every processed point coordinate ends up bound. -/
theorem exFoldl_fmisid_inv :
    ∀ (pts : List GmlPoint) (m0 m : List ((PyFloat × PyFloat) × ℤ)),
      exFoldl fmisid_map_step m0 pts = .ok m →
      ((∀ k v, dictGet m k = some v →
        dictGet m0 k = some v ∨
          ∃ pt ∈ pts, coord_of_point pt = .ok k ∧
            parse_station_id pt.gmlId = .ok v) ∧
      (∀ k, (dictGet m0 k).isSome → (dictGet m k).isSome) ∧
      (∀ pt ∈ pts, ∀ k, coord_of_point pt = .ok k →
        (dictGet m k).isSome)) := by
  intro pts
  induction pts with
  | nil =>
    intro m0 m h
    simp only [exFoldl, Except.ok.injEq] at h
    subst h
    exact ⟨fun k v hv => Or.inl hv, fun k h => h, by simp⟩
  | cons pt pts ih =>
    intro m0 m h
    cases hid : parse_station_id pt.gmlId with
    | error msg => simp [exFoldl, fmisid_map_step, hid] at h
    | ok fmisid =>
      cases hc : coord_of_point pt with
      | error msg => simp [exFoldl, fmisid_map_step, hid, hc] at h
      | ok c =>
        have hstep : exFoldl fmisid_map_step (dictInsert m0 c fmisid) pts =
            .ok m := by
          simpa [exFoldl, fmisid_map_step, hid, hc] using h
        obtain ⟨A, G, B⟩ := ih (dictInsert m0 c fmisid) m hstep
        refine ⟨?_, ?_, ?_⟩
        · intro k v hv
          rcases A k v hv with hin | ⟨pt2, hpt2, hc2, hv2⟩
          · rw [dictGet_dictInsert] at hin
            by_cases hk : k = c
            · rw [if_pos hk] at hin
              simp only [Option.some.injEq] at hin
              subst hk
              subst hin
              exact Or.inr ⟨pt, by simp, hc, hid⟩
            · rw [if_neg hk] at hin
              exact Or.inl hin
          · exact Or.inr ⟨pt2, by simp [hpt2], hc2, hv2⟩
        · intro k hk
          apply G
          rw [dictGet_dictInsert]
          by_cases hkc : k = c
          · simp [hkc]
          · rw [if_neg hkc]
            exact hk
        · intro pt2 hpt2 k hck
          rw [List.mem_cons] at hpt2
          rcases hpt2 with rfl | hpt2
          · rw [hc] at hck
            simp only [Except.ok.injEq] at hck
            subst hck
            apply G
            rw [dictGet_dictInsert, if_pos rfl]
            rfl
          · exact B pt2 hpt2 k hck

theorem get_fmisid_map_ok_inv {obs : GridSeriesObservation}
    {feat : SamplingFeature} (hfeat : obs.samplingFeature = some feat)
    {m : List ((PyFloat × PyFloat) × ℤ)} (h : get_fmisid_map obs = .ok m) :
    feat.gmlId = "sampling-feature-1-1-fmisid" ∧
      exFoldl fmisid_map_step [] feat.pointMember = .ok m := by
  have he : get_fmisid_map obs =
      (if feat.gmlId = "sampling-feature-1-1-fmisid" then
        exFoldl fmisid_map_step [] feat.pointMember
      else .error ("invalid sampling feature " ++ feat.gmlId)) := by
    unfold get_fmisid_map
    rw [hfeat]
  rw [he] at h
  by_cases hid : feat.gmlId = "sampling-feature-1-1-fmisid"
  · rw [if_pos hid] at h
    exact ⟨hid, h⟩
  · rw [if_neg hid] at h
    exact absurd h (by simp)

/-- C3 counterexample: the claim says the resolver binds a point
coordinate to the id parsed from the NUMERIC SUFFIX of the point id.  For
the listed point with identifier "station-12-34" — which ends in "-34",
numeric suffix 34 — at coordinate (60, 25), the code binds the component
after the FIRST dash, 12, not 34. -/
theorem station_id_not_suffix_counterexample :
    ∃ m, get_fmisid_map obsSuffix = .ok m ∧
      dictGet m (PyFloat.num 60, PyFloat.num 25) = some 12 ∧
      parse_station_id "station-12-34" = .ok 12 ∧
      ¬ dictGet m (PyFloat.num 60, PyFloat.num 25) = some 34 := by
  refine ⟨[((PyFloat.num 60, PyFloat.num 25), 12)], by rfl, by rfl, by rfl,
    by decide⟩

/-- C3 (amended): the station resolver binds each listed point coordinate
to the station id parsed (as an integer) from the dash-separated component
following the FIRST dash of the point identifier — which is the numeric
suffix whenever the identifier contains exactly one dash — and then
replaces every decoded coordinate by its mapped station id, raising the
unknown-station error exactly when a decoded coordinate is not listed. -/
theorem station_resolution_amended (doc : WfsDoc)
    (obs : GridSeriesObservation) (feat : SamplingFeature)
    (m : List ((PyFloat × PyFloat) × ℤ)) (tups : List ObsTuple)
    (hobs : doc.observation = some obs)
    (hfeat : obs.samplingFeature = some feat)
    (hmap : get_fmisid_map obs = .ok m)
    (hdec : _parse_multipoint doc = .ok tups) :
    (∀ pt ∈ feat.pointMember, ∀ c, coord_of_point pt = .ok c →
      ∃ fmisid, dictGet m c = some fmisid ∧
        ∃ pt2 ∈ feat.pointMember, coord_of_point pt2 = .ok c ∧
          parse_station_id pt2.gmlId = .ok fmisid) ∧
    (∀ c fmisid, dictGet m c = some fmisid →
      ∃ pt ∈ feat.pointMember, coord_of_point pt = .ok c ∧
        parse_station_id pt.gmlId = .ok fmisid) ∧
    (∀ l, fmisids_of_doc doc = .ok l →
      l.length = tups.length ∧
      ∀ (i : ℕ) (t : ObsTuple), tups[i]? = some t →
        ∃ fmisid, dictGet m (t.lat, t.lon) = some fmisid ∧
          l[i]? = some (fmisid, t.ts, t.param, t.value)) ∧
    ((∃ t ∈ tups, dictGet m (t.lat, t.lon) = none) →
      ∃ msg, fmisids_of_doc doc = .error msg) := by
  obtain ⟨hid, hfold⟩ := get_fmisid_map_ok_inv hfeat hmap
  obtain ⟨A, G, B⟩ := exFoldl_fmisid_inv feat.pointMember [] m hfold
  have hfd : fmisids_of_doc doc = exMapM (resolve_tuple m) tups := by
    have he : fmisids_of_doc doc =
        (match get_fmisid_map obs with
         | .error msg => .error msg
         | .ok fmisid_map =>
             match _parse_multipoint doc with
             | .error msg => .error msg
             | .ok tups2 => exMapM (resolve_tuple fmisid_map) tups2) := by
      unfold fmisids_of_doc
      rw [hobs]
    rw [he, hmap, hdec]
  refine ⟨?_, ?_, ?_, ?_⟩
  · intro pt hpt c hc
    obtain ⟨fmisid, hget⟩ := Option.isSome_iff_exists.mp (B pt hpt c hc)
    rcases A c fmisid hget with h0 | hx
    · simp [dictGet] at h0
    · exact ⟨fmisid, hget, hx⟩
  · intro c fmisid hget
    rcases A c fmisid hget with h0 | hx
    · simp [dictGet] at h0
    · exact hx
  · intro l hl
    rw [hfd] at hl
    refine ⟨exMapM_ok_length _ _ _ hl, ?_⟩
    intro i t ht
    obtain ⟨y, hy, hres⟩ := exMapM_ok_get _ _ _ hl i t ht
    unfold resolve_tuple at hres
    split at hres
    · exact absurd hres (by simp)
    · rename_i fmisid hget
      simp only [Except.ok.injEq] at hres
      rw [← hres] at hy
      exact ⟨fmisid, hget, hy⟩
  · rintro ⟨t, htmem, hnone⟩
    rw [hfd]
    apply exMapM_error_of_fail _ _ t htmem
    intro b hb
    unfold resolve_tuple at hb
    rw [hnone] at hb
    exact absurd hb (by simp)

/-- Witness for `station_resolution_amended` on `docA`: the two listed
points resolve, the six decoded tuples are mapped, and the first output
tuple carries station id 101234. -/
theorem station_resolution_amended_witness :
    ∃ m, get_fmisid_map obsA = .ok m ∧
      ∃ l, fmisids_of_doc docA = .ok l ∧ l.length = lA.length ∧
        ∃ fmisid, dictGet m (PyFloat.num 60, PyFloat.num 25) = some fmisid ∧
          l[0]? = some (fmisid, 100, "t2m", PyFloat.num 1) := by
  refine ⟨[((PyFloat.num 60, PyFloat.num 25), 101234),
    ((PyFloat.num 61, PyFloat.num 26), 100968)], by rfl, ?_⟩
  obtain ⟨-, -, C, -⟩ := station_resolution_amended docA obsA featA
    [((PyFloat.num 60, PyFloat.num 25), 101234),
      ((PyFloat.num 61, PyFloat.num 26), 100968)] lA rfl rfl (by rfl) (by rfl)
  refine ⟨[(101234, 100, "t2m", PyFloat.num 1),
    (101234, 100, "ws", PyFloat.num 2),
    (101234, 200, "t2m", PyFloat.nan),
    (101234, 200, "ws", PyFloat.num 4),
    (100968, 300, "t2m", PyFloat.num 5),
    (100968, 300, "ws", PyFloat.num 6)], by rfl, ?_, ?_⟩
  · exact (C _ (by rfl)).1
  · obtain ⟨fmisid, hget, hl0⟩ := (C _ (by rfl)).2 0
      ⟨PyFloat.num 60, PyFloat.num 25, 100, "t2m", PyFloat.num 1⟩ (by rfl)
    exact ⟨fmisid, hget, hl0⟩

/-- C10: on the forecast (projection-tagged) path, decoding fails unless
the sampling-feature points carry exactly one distinct `srsName`
projection, and on success every emitted `Point` carries that unique
projection string. -/
theorem projection_unique_or_error (doc : WfsDoc)
    (obs : GridSeriesObservation) (hobs : doc.observation = some obs) :
    ((((obs.samplingFeature.map (fun l => l.pointMembers)).getD []).map
        (fun p => p.srsName)).dedup.length ≠ 1 →
      ∃ msg, parse_multipoint_points [doc] = .error msg) ∧
    (∀ p, (((obs.samplingFeature.map (fun l => l.pointMembers)).getD []).map
        (fun p => p.srsName)).dedup = [p] →
      ∀ l, parse_multipoint_points [doc] = .ok l →
        ∀ x ∈ l, x.1.projection = p) := by
  have hgp : get_projection obs =
      (match (((obs.samplingFeature.map (fun l => l.pointMembers)).getD
          []).map (fun p => p.srsName)).dedup with
       | [p] => Except.ok p
       | _ => Except.error "Non-unique value for projection") := rfl
  have hpd : points_of_doc doc =
      (match get_projection obs with
       | .error msg => .error msg
       | .ok projection =>
           match _parse_multipoint doc with
           | .error msg => .error msg
           | .ok tups => .ok (tups.map (fun t =>
               (⟨t.lat, t.lon, projection⟩, t.ts, t.param, t.value)))) := by
    unfold points_of_doc
    rw [hobs]
  constructor
  · intro hne
    have herr : get_projection obs =
        .error "Non-unique value for projection" := by
      rw [hgp]
      cases hdd : (((obs.samplingFeature.map (fun l => l.pointMembers)).getD
          []).map (fun p => p.srsName)).dedup with
      | nil => rfl
      | cons p rest =>
        cases rest with
        | nil => exact absurd (by rw [hdd]; rfl) hne
        | cons q rest2 => rfl
    have hpderr : points_of_doc doc =
        .error "Non-unique value for projection" := by
      rw [hpd, herr]
    exact ⟨"Non-unique value for projection",
      by simp [parse_multipoint_points, exMapM, hpderr]⟩
  · intro p hdd l hl x hx
    have hok : get_projection obs = .ok p := by
      rw [hgp, hdd]
    cases hx2 : points_of_doc doc with
    | error msg =>
      rw [show parse_multipoint_points [doc] = .error msg by
        simp [parse_multipoint_points, exMapM, hx2]] at hl
      exact absurd hl (by simp)
    | ok xs =>
      have hlxs : l = xs := by
        have : parse_multipoint_points [doc] = .ok xs := by
          simp [parse_multipoint_points, exMapM, hx2]
        rw [this] at hl
        simpa using hl.symm
      subst hlxs
      cases hmp2 : _parse_multipoint doc with
      | error msg => simp [hpd, hok, hmp2] at hx2
      | ok tups =>
        rw [hpd, hok, hmp2] at hx2
        simp only [Except.ok.injEq] at hx2
        rw [← hx2] at hx
        rw [List.mem_map] at hx
        obtain ⟨t, -, rfl⟩ := hx
        rfl

/-- Witness for `projection_unique_or_error`: two distinct projections
fail; `docA` (single projection "EPSG:4258") decodes with every point
tagged "EPSG:4258". -/
theorem projection_unique_or_error_witness :
    (((((⟨some featBadProj, none⟩ : GridSeriesObservation)
        |>.samplingFeature.map (fun l => l.pointMembers)).getD []).map
        (fun p => p.srsName)).dedup.length ≠ 1) ∧
    (∃ msg, parse_multipoint_points [docBadProj] = .error msg) ∧
    ∃ l, parse_multipoint_points [docA] = .ok l ∧ l.length = 6 ∧
      ∀ x ∈ l, x.1.projection = "EPSG:4258" := by
  refine ⟨by decide, ?_, ?_⟩
  · exact (projection_unique_or_error docBadProj ⟨some featBadProj, none⟩
      rfl).1 (by decide)
  · refine ⟨lA.map (fun t =>
      (⟨t.lat, t.lon, "EPSG:4258"⟩, t.ts, t.param, t.value)), by rfl,
      by rfl, ?_⟩
    exact (projection_unique_or_error docA obsA rfl).2 "EPSG:4258" (by rfl)
      _ (by rfl)

end FmiCli
